import Mathlib

/-!
Verification development for the configService repository (Go).

The development shallowly embeds the program's core: the recursive field
binder (processTags / processInitTags in src/unnamed/part_000), the source
resolver (getConfigurationFiles, getConfigurationFileWithENVPrefix), the
decoder dispatch for extension-less files (processFile's default branch),
the load pipeline's watch-mode short-circuit (load), and the auto-reload
background loop (Load in src/configService.go).

Modelling conventions:
* Go structs, field lists and slices are represented by the single
  inductive `Val`; field lists and element lists are encoded with the
  constructors fnil/fcons and enil/econs of the same inductive so that all
  functions are plain structural recursions that reduce definitionally.
  A slice value carries the zero value of its element type as a type
  witness (reflect needs the element type to build fresh elements).
* The process environment and the YAML decoder are external collaborators
  (spec sections 2 and 4.3); they are passed in as the `World` structure.
  `yamlLit` is a small concrete decoder model used to instantiate worlds
  in concrete theorems.
* Pointer indirection (part_000 lines 228, 259-261, reflect.Indirect and
  the Ptr-unwrapping loop) is not modelled: `Val` has no pointer
  constructor, so those operations are identities. No claim under
  verification involves pointer-typed fields.
* Go mutates the record in place; the embedding passes values and returns
  the updated value in `Except`. On error Go leaves a partially mutated
  record behind; the embedding returns only the error (no claim concerns
  the partially mutated state).
* The unbounded synthesis loop for empty slices and the recursion through
  decoder-produced values are not structurally terminating, so the binder
  takes a fuel argument and fails with "insufficient fuel" when it runs
  out; concrete theorems supply ample fuel.
* reflect.DeepEqual is modelled by decidable equality on `Val`. (Go
  distinguishes nil slices from empty ones; `Val` does not. No claim
  depends on that distinction.)
-/

namespace ConfigService

/-- Metadata of one struct field as the binder sees it through reflection:
its name, the `env`, `default`, `required` and `anonymous` tags, Go's
StructField.Anonymous flag, and the CanAddr/CanInterface accessibility
flags checked at part_000:206-208 and 411-413. `required` models
Tag.Get("required") == "true" and `anonTag` models
Tag.Get("anonymous") == "true". -/
structure FieldMeta where
  name : String
  envTag : String
  defaultTag : String
  required : Bool
  anonymous : Bool
  anonTag : Bool
  canAddr : Bool
  canInterface : Bool
deriving DecidableEq

/-- Runtime value of a (possibly nested) target record. vStruct's argument
is a field list built from fcons/fnil; vSlice's first argument is the zero
value of the element type (a type witness), its second an element list
built from econs/enil. vInt stands for every scalar kind that is neither
Bool nor String (such fields are bound through the YAML decoder,
part_000:238-241). -/
inductive Val where
  | vBool (b : Bool)
  | vStr (s : String)
  | vInt (n : Int)
  | vStruct (fields : Val)
  | fnil
  | fcons (m : FieldMeta) (v : Val) (rest : Val)
  | vSlice (elemZero : Val) (elems : Val)
  | enil
  | econs (v : Val) (rest : Val)
deriving DecidableEq

/-- reflect.Zero(field.Type()): the zero value of a value's type (the zero
of a slice type is the empty/nil slice). -/
def Val.zeroOf : Val → Val
  | .vBool _ => .vBool false
  | .vStr _ => .vStr ""
  | .vInt _ => .vInt 0
  | .vStruct fs => .vStruct fs.zeroOf
  | .fnil => .fnil
  | .fcons m v rest => .fcons m v.zeroOf rest.zeroOf
  | .vSlice z _ => .vSlice z .enil
  | .enil => .enil
  | .econs v rest => .econs v.zeroOf rest.zeroOf

/-- A value of scalar kind: neither a struct nor a slice, so the binder's
recursion step (part_000:263-297) leaves it untouched. -/
def Val.isScalar : Val → Bool
  | .vBool _ => true
  | .vStr _ => true
  | .vInt _ => true
  | _ => false

/-- The external collaborators of the binder: the process environment
(os.Getenv; Go returns "" both for unset and for empty variables) and the
YAML decoder (yaml.Unmarshal of a literal into the field's current
value). -/
structure World where
  env : String → String
  yamlParse : String → Val → Except String Val

/-- Model of strings.ToUpper restricted to the ASCII env-variable names the
binder builds. -/
def strToUpper (s : String) : String := String.mk (s.data.map Char.toUpper)

/-- Model of strings.ToLower restricted to ASCII. -/
def strToLower (s : String) : String := String.mk (s.data.map Char.toLower)

/-- The boolean conversion switch at part_000:230-235: after lowering, "",
"0", "f" and "false" give false, anything else true. (The "" arm is dead
in the binder because only non-empty env values reach the switch.) -/
def boolFromEnvString (value : String) : Bool :=
  if strToLower value = "" ∨ strToLower value = "0" ∨ strToLower value = "f" ∨ strToLower value = "false"
  then false else true

/-- The env probing loop at part_000:222-245: the first candidate name
whose environment value is non-empty wins; empty values fall through. -/
def firstEnvValue (env : String → String) : List String → Option String
  | [] => none
  | n :: rest => if env n = "" then firstEnvValue env rest else some (env n)

/-- The candidate env-variable names built at part_000:210-215: the
explicit `env` tag if present, else the "_"-joined binding path verbatim
and upper-cased. -/
def envCandidates (prefixes : List String) (m : FieldMeta) : List String :=
  if m.envTag = "" then
    [String.intercalate "_" (prefixes ++ [m.name]),
     strToUpper (String.intercalate "_" (prefixes ++ [m.name]))]
  else [m.envTag]

/-- getPrefixForStruct (part_000:184-189): anonymous embedded fields whose
`anonymous` tag is "true" do not contribute their name to the path. -/
def getPrefixForStruct (prefixes : List String) (m : FieldMeta) : List String :=
  if m.anonymous && m.anonTag then prefixes else prefixes ++ [m.name]

/-- The type switch converting a non-empty env value into the field
(part_000:228-242): booleans through the boolean switch, strings verbatim,
everything else through the YAML decoder. -/
def convertEnv (w : World) (value : String) (field : Val) : Except String Val :=
  match field with
  | .vBool _ => .ok (.vBool (boolFromEnvString value))
  | .vStr _ => .ok (.vStr value)
  | other => w.yamlParse value other

/-- The blank check and default/required handling (part_000:247-257 for
the full binder, 452-459 for the init binder, selected by chk): if the
field equals the zero value of its type, a non-empty `default` tag is
parsed into it; otherwise, in the full variant only, a `required` field
raises the required-but-blank error. -/
def applyDefaultOrRequired (w : World) (chk : Bool) (m : FieldMeta) (v : Val) : Except String Val :=
  if v = v.zeroOf then
    if m.defaultTag ≠ "" then w.yamlParse m.defaultTag v
    else if chk && m.required then .error (m.name ++ " is required, but blank")
    else .ok v
  else .ok v

/-- Append one element to an econs/enil chain (reflect.Append). -/
def appendElem : Val → Val → Val
  | .enil, x => .econs x .enil
  | .econs e es, x => .econs e (appendElem es x)
  | other, _ => other

/-- The non-empty slice branch (part_000:271-278): recurse into each
existing element of struct kind at the path extended by the element's
index; other elements stay untouched. `rec` is the recursive binder call
on a field list. -/
def processSliceElems (rec : List String → Val → Except String Val)
    (prefixStruct : List String) : Nat → Val → Except String Val
  | _, .enil => .ok .enil
  | i, .econs e es => do
      let e₂ ←
        match e with
        | .vStruct fs => do
            let fs₂ ← rec (prefixStruct ++ [toString i]) fs
            pure (Val.vStruct fs₂)
        | other => pure other
      let es₂ ← processSliceElems rec prefixStruct (i + 1) es
      pure (.econs e₂ es₂)
  | _, other => .ok other

/-- The empty-slice synthesis loop (part_000:279-296): repeatedly build a
fresh zero element, bind it at the path extended by the running index,
stop at the first index whose bound result equals the fresh zero element,
otherwise append it and continue. The loop has no bound in Go; here it
consumes fuel. `fs₀` is the field list of the element type's zero value. -/
def synthSliceFromEnv (rec : List String → Val → Except String Val) :
    Nat → List String → Val → Nat → Val → Except String Val
  | 0, _, _, _, _ => .error "insufficient fuel"
  | fuel + 1, prefixStruct, fs₀, idx, acc => do
      let fs₂ ← rec (prefixStruct ++ [toString idx]) fs₀
      if Val.vStruct fs₂ = Val.vStruct fs₀ then pure acc
      else synthSliceFromEnv rec fuel prefixStruct fs₀ (idx + 1) (appendElem acc (.vStruct fs₂))

/-- The recursion step ending each iteration of the binder's field loop
(part_000:263-297 and 465-499): descend into a struct field with the
extended path, into each element of a non-empty slice, or synthesize the
elements of an empty slice whose element type is a struct kind; scalar
fields are left as they are. `rec` is the recursive binder call on a
nested field list and `synthFuel` bounds the synthesis loop (unbounded
in Go). -/
def recurseStep (rec : List String → Val → Except String Val) (synthFuel : Nat)
    (prefixes : List String) (m : FieldMeta) : Val → Except String Val
  | .vStruct fs => do
      let fs₂ ← rec (getPrefixForStruct prefixes m) fs
      pure (Val.vStruct fs₂)
  | .vSlice z elems =>
      match elems with
      | .econs e es => do
          let elems₂ ← processSliceElems rec (getPrefixForStruct prefixes m) 0 (Val.econs e es)
          pure (Val.vSlice z elems₂)
      | _ =>
          match Val.zeroOf z with
          | .vStruct fs₀ => do
              let elems₂ ← synthSliceFromEnv rec synthFuel
                (getPrefixForStruct prefixes m) fs₀ 0 .enil
              pure (Val.vSlice z elems₂)
          | _ => pure (Val.vSlice z elems)
  | other => pure other

/-- The body of one iteration of the binder's field loop, shared by
processTags (part_000:206-297, chk = true) and processInitTags
(part_000:411-499, chk = false); the two Go loop bodies are identical
except for the required branch inside applyDefaultOrRequired. Skip the
field if it is inaccessible; probe the env candidates and convert the
first non-empty value; apply default/required handling on blank fields;
then run the recursion step. -/
def processField (w : World) (rec : List String → Val → Except String Val)
    (synthFuel : Nat) (chk : Bool) (prefixes : List String) (m : FieldMeta) (v : Val) :
    Except String Val :=
  if !m.canAddr || !m.canInterface then pure v
  else do
    let v₁ ←
      match firstEnvValue w.env (envCandidates prefixes m) with
      | none => pure v
      | some value => convertEnv w value v
    let v₂ ← applyDefaultOrRequired w chk m v₁
    recurseStep rec synthFuel prefixes m v₂

/-- The binder's loop over an fcons/fnil field list (part_000:198-298 and
403-500): run processField on every field in order, aborting on the first
error. -/
def processFields (w : World) : Nat → Bool → List String → Val → Except String Val
  | _, _, _, .fnil => .ok .fnil
  | 0, _, _, _ => .error "insufficient fuel"
  | fuel + 1, chk, prefixes, .fcons m v rest => do
      let v₃ ← processField w (processFields w fuel chk) fuel chk prefixes m v
      let rest₂ ← processFields w fuel chk prefixes rest
      pure (.fcons m v₃ rest₂)
  | _, _, _, other => .ok other

/-- processTags (part_000:191-300): the full binder used by Load; raises
on required-but-blank fields. Rejects non-struct targets. -/
def processTags (w : World) (fuel : Nat) (config : Val) (prefixes : List String) :
    Except String Val :=
  match config with
  | .vStruct fs => do
      let fs₂ ← processFields w fuel true prefixes fs
      pure (Val.vStruct fs₂)
  | _ => .error "invalid config, should be struct"

/-- processInitTags (part_000:396-502): the init binder used by Init;
identical to processTags except that it never raises on
required-but-blank fields. -/
def processInitTags (w : World) (fuel : Nat) (config : Val) (prefixes : List String) :
    Except String Val :=
  match config with
  | .vStruct fs => do
      let fs₂ ← processFields w fuel false prefixes fs
      pure (Val.vStruct fs₂)
  | _ => .error "invalid config, should be struct"

/-- Model of an integer literal parser (strconv-style) for the decoder
model below. -/
def digitsVal : List Char → Option Nat
  | [] => none
  | c :: rest =>
      if c.isDigit then
        match rest with
        | [] => some (c.toNat - 48)
        | _ => match digitsVal rest with
               | some n => some ((c.toNat - 48) * 10 ^ rest.length + n)
               | none => none
      else none

/-- Integer part of the decoder model. -/
def strToIntLit (s : String) : Option Int :=
  match s.data with
  | '-' :: rest => (digitsVal rest).map (fun n => -(n : Int))
  | l => (digitsVal l).map (fun n => (n : Int))

/-- Concrete model of the out-of-scope YAML decoder collaborator (the spec
treats format decoders as external): parses a literal string into a value
of the field's current shape. Used only to build concrete worlds for
example theorems; general theorems stay abstract in the decoder. -/
def yamlLit (s : String) (v : Val) : Except String Val :=
  match v with
  | .vBool _ =>
      if s = "true" then .ok (.vBool true)
      else if s = "false" then .ok (.vBool false)
      else .error "yaml: cannot parse bool"
  | .vInt _ =>
      match strToIntLit s with
      | some n => .ok (.vInt n)
      | none => .error "yaml: cannot parse int"
  | .vStr _ => .ok (.vStr s)
  | _ => .error "yaml: unsupported target"

/-! Source resolver (part_000:41-99). The filesystem is an external
collaborator: stat by path, yielding a regular-file flag and a
modification time (modelled as Nat). -/

/-- Result of a successful os.Stat. -/
structure FileInfo where
  isRegular : Bool
  modTime : Nat
deriving DecidableEq

/-- The filesystem collaborator. none models a stat error. -/
structure FS where
  stat : String → Option FileInfo

/-- The "err == nil && fileInfo.Mode().IsRegular()" test used at
part_000:53 and 72, yielding the modification time. -/
def statRegular (fs : FS) (p : String) : Option Nat :=
  match fs.stat p with
  | some info => if info.isRegular then some info.modTime else none
  | none => none

/-- Model of Go's path.Ext: scan backwards until a dot (return the suffix
from the dot) or a slash (return ""). -/
def pathExtAux : List Char → List Char → String
  | [], _ => ""
  | c :: rest, acc =>
      if c = '/' then ""
      else if c = '.' then String.mk ('.' :: acc)
      else pathExtAux rest (c :: acc)

/-- path.Ext. -/
def pathExt (p : String) : String := pathExtAux p.data.reverse []

/-- List-based suffix test (strings.HasSuffix). -/
def strEndsWith (s suffix : String) : Bool := List.isSuffixOf suffix.data s.data

/-- strings.TrimSuffix. -/
def trimSuffix (s suffix : String) : String :=
  if strEndsWith s suffix then String.mk (s.data.take (s.data.length - suffix.data.length))
  else s

/-- The env-suffixed file name built at part_000:47-51: insert
".<env>" before the extension, or append ".<env>" when there is no
extension. -/
def envFileName (file env : String) : String :=
  if pathExt file = "" then file ++ "." ++ env
  else trimSuffix file (pathExt file) ++ "." ++ env ++ pathExt file

/-- getConfigurationFileWithENVPrefix (part_000:41-57): the env-suffixed
variant if it exists as a regular file, together with its modification
time; none models the error return. -/
def getConfigurationFileWithENVPrefix (fs : FS) (file env : String) : Option (String × Nat) :=
  match statRegular fs (envFileName file env) with
  | some t => some (envFileName file env, t)
  | none => none

/-- A diagnostic printed by the source resolver. -/
inductive Diag where
  | usingExample (file exampleFile : String)
  | notFound (file : String)
deriving DecidableEq

/-- The per-candidate body of the resolver loop (part_000:67-96): include
the literal path if it is a regular file; independently include the
env-suffixed variant if that is a regular file (after the base, so it
overrides it); if neither was found fall back to the ".example" variant,
with a diagnostic unless in watch or silent mode; if no fallback exists,
a diagnostic unless silent, and nothing is included. -/
def resolveCandidate (fs : FS) (watchMode silent : Bool) (env file : String) :
    List (String × Nat) × List Diag :=
  let base := (statRegular fs file).map (fun t => (file, t))
  let envEntry := getConfigurationFileWithENVPrefix fs file env
  let foundFile := base.isSome || envEntry.isSome
  if foundFile then (base.toList ++ envEntry.toList, [])
  else
    match getConfigurationFileWithENVPrefix fs file "example" with
    | some (ex, t) =>
        ([(ex, t)], if !watchMode && !silent then [Diag.usingExample file ex] else [])
    | none => ([], if !silent then [Diag.notFound file] else [])

/-- getConfigurationFiles (part_000:59-99): iterate the candidates in
reverse input order, appending each candidate's entries and diagnostics.
The path-to-modtime map is modelled by the same association list. -/
def getConfigurationFiles (fs : FS) (watchMode silent : Bool) (env : String)
    (files : List String) : List (String × Nat) × List Diag :=
  files.reverse.foldl
    (fun acc file =>
      let r := resolveCandidate fs watchMode silent env file
      (acc.1 ++ r.1, acc.2 ++ r.2))
    ([], [])

/-! Load pipeline (part_000:302-347). Decoding and binding are abstracted
as functions returning an optional error; the outcome records which files
were decoded and whether the binder ran, so the watch-mode short-circuit
is observable. -/

/-- Lookup in the previous modification-time map (configModTimes). -/
def lookupTime : List (String × Nat) → String → Option Nat
  | [], _ => none
  | (f, t) :: rest, g => if f = g then some t else lookupTime rest g

/-- The change scan at part_000:318-322: an entry counts as changed if it
has no recorded time or its time is strictly newer (t.After(v)). -/
def modTimesChanged (newTimes prevTimes : List (String × Nat)) : Bool :=
  newTimes.any fun ft =>
    match lookupTime prevTimes ft.1 with
    | none => true
    | some v => decide (v < ft.2)

/-- Decode the resolved files in order, stopping at the first error
(part_000:330-337); returns the list of files actually attempted and the
error, if any. -/
def runDecodes (decodeFile : String → Option String) : List String → List String × Option String
  | [] => ([], none)
  | f :: rest =>
      match decodeFile f with
      | some e => ([f], some e)
      | none =>
          let r := runDecodes decodeFile rest
          (f :: r.1, r.2)

/-- Observable outcome of one load pass. -/
structure LoadOutcome where
  err : Option String
  changed : Bool
  decodedFiles : List String
  bindRan : Bool
deriving DecidableEq

/-- load (part_000:302-347) after source resolution: in watch mode, if the
new source set has as many entries as the previous one and no entry is
newer, return unchanged without decoding or binding; otherwise decode each
file in order (aborting on error) and run the field binder once. Updating
the stored configModTimes (line 338) is caller state and not modelled; the
ENVPrefix selection (lines 340-344) is abstracted into the prefixes
argument of the binder pass. -/
def loadModel (watchMode : Bool) (resolved : List (String × Nat))
    (prevTimes : List (String × Nat)) (decodeFile : String → Option String)
    (bindPass : List String → Option String) (prefixes : List String) : LoadOutcome :=
  if watchMode && (resolved.length == prevTimes.length) && !(modTimesChanged resolved prevTimes)
  then ⟨none, false, [], false⟩
  else
    let d := runDecodes decodeFile (resolved.map Prod.fst)
    match d.2 with
    | some e => ⟨some e, true, d.1, false⟩
    | none => ⟨bindPass prefixes, true, d.1, true⟩

/-! Decoder dispatch for files without a recognized extension
(part_000:117-145). The three format decoders are external collaborators;
their outcomes are inputs. The Boolean on YamlOutcome.typeErr records
whether the yaml.TypeError was actually caused by unmatched keys (strict
mode); the dispatch cannot see that flag, exactly as the Go code cannot. -/

/-- Outcome of unmarshalToml (part_000:158-164). -/
inductive TomlOutcome where
  | ok
  | unmatchedKeys (keys : List String)
  | otherErr (msg : String)
deriving DecidableEq

/-- Outcome of unmarshalJSON (part_000:169-182); unmatched keys are only
recognizable through the "json: unknown field" substring of the message. -/
inductive JsonOutcome where
  | ok
  | jsonErr (msg : String)
deriving DecidableEq

/-- Outcome of the yaml call (part_000:131-136). -/
inductive YamlOutcome where
  | ok
  | typeErr (msg : String) (dueToUnmatchedKeys : Bool)
  | otherErr (msg : String)
deriving DecidableEq

/-- What processFile returns in the no-extension branch. -/
inductive DecodeResult where
  | ok
  | unmatchedTomlKeys (keys : List String)
  | jsonUnknownField (msg : String)
  | yamlTypeError (msg : String)
  | genericFailure
deriving DecidableEq

/-- Char-list prefix test used by the substring check. -/
def leadsWith : List Char → List Char → Bool
  | [], _ => true
  | _ :: _, [] => false
  | a :: as, b :: bs => a == b && leadsWith as bs

/-- Substring scan. -/
def strContainsAux (pat : List Char) : List Char → Bool
  | [] => leadsWith pat []
  | c :: rest => leadsWith pat (c :: rest) || strContainsAux pat rest

/-- Model of strings.Contains. -/
def strContains (s pat : String) : Bool := strContainsAux pat.data s.data

/-- The default branch of processFile (part_000:117-145): try TOML,
returning an UnmatchedTomlKeysError immediately; else try JSON, returning
the error immediately if its message contains "json: unknown field"; else
try YAML, returning a yaml.TypeError as-is; else the generic
"failed to decode config" error. -/
def processFileNoExt (tomlR : TomlOutcome) (jsonR : JsonOutcome) (yamlR : YamlOutcome) :
    DecodeResult :=
  match tomlR with
  | .ok => .ok
  | .unmatchedKeys ks => .unmatchedTomlKeys ks
  | .otherErr _ =>
    match jsonR with
    | .ok => .ok
    | .jsonErr msg =>
      if strContains msg "json: unknown field" then .jsonUnknownField msg
      else
        match yamlR with
        | .ok => .ok
        | .typeErr m _ => .yamlTypeError m
        | .otherErr _ => .genericFailure

/-! The auto-reload loop started by Load (configService.go:110-138). The
load pipeline is abstracted as a function from the scratch record to the
mutated record, the error and the changed flag; the record type is a
parameter, as the Go code is reflection-generic. The captured
`defaultValue` (line 111) is reflect.Indirect of the caller's pointer, so
it aliases the caller-visible record: `Set(defaultValue)` at line 122
copies the record's current contents at the start of each cycle. -/

/-- Observable outcome of one timer cycle (configService.go:121-133):
the value the scratch record was seeded with, the committed (caller
visible) value afterwards, and whether the callback ran. -/
structure CycleResult (V : Type) where
  seed : V
  committed : V
  callbackRun : Bool

/-- One timer cycle: allocate a fresh scratch record, seed it from the
current contents of the caller-visible record (via the aliasing
defaultValue), run the load pipeline on it, and publish the result (and
invoke the callback) only when the pipeline returned no error and the
source set changed. -/
def autoReloadCycle {V : Type} (loadScratch : V → V × Option String × Bool) (config : V) :
    CycleResult V :=
  let scratch := config
  let r := loadScratch scratch
  if r.2.1 = none ∧ r.2.2 = true then ⟨scratch, r.1, true⟩
  else ⟨scratch, config, false⟩

/-- The timer loop: run the given cycles in order, threading the committed
record; returns the final committed record and the list of seeds used. -/
def autoReloadRun {V : Type} (cycles : List (V → V × Option String × Bool)) (config : V) :
    V × List V :=
  match cycles with
  | [] => (config, [])
  | l :: rest =>
      let c := autoReloadCycle l config
      let r := autoReloadRun rest c.committed
      (r.1, c.seed :: r.2)

/-- Load with AutoReload enabled (configService.go:110-138): the initial
synchronous load mutates the record (its error is returned but does not
stop the watcher), then the background cycles run. Returns the initial
error, the final committed record and the seeds of all cycles. -/
def loadWithAutoReload {V : Type} (initialLoad : V → V × Option String × Bool)
    (cycles : List (V → V × Option String × Bool)) (config : V) :
    Option String × V × List V :=
  let i := initialLoad config
  let r := autoReloadRun cycles i.1
  (i.2.1, r.1, r.2)

/-! General helper lemmas about the Except monad and the per-field
behaviour of the binder, shared by the claim theorems below. -/

/-- pure on Except is ok. -/
theorem exceptPure {α : Type} (a : α) : (pure a : Except String α) = Except.ok a := rfl

/-- Binding an error short-circuits. -/
theorem exceptErrorBind {α β : Type} (e : String) (f : α → Except String β) :
    (Except.error e : Except String α) >>= f = Except.error e := rfl

/-- Binding an ok value applies the continuation. -/
theorem exceptOkBind {α β : Type} (a : α) (f : α → Except String β) :
    (Except.ok a : Except String α) >>= f = f a := rfl

/-- The recursion step leaves scalar fields untouched. -/
theorem recurseStepScalar (rec : List String → Val → Except String Val) (synthFuel : Nat)
    (prefixes : List String) (m : FieldMeta) (v : Val) (hScalar : v.isScalar = true) :
    recurseStep rec synthFuel prefixes m v = .ok v := by
  cases v <;> simp_all [recurseStep, Val.isScalar, exceptPure]

/-- A field that is not addressable or not interfaceable is skipped whole:
no probing, no default, no required error, no recursion. -/
theorem processFieldSkipsInaccessible (w : World) (rec : List String → Val → Except String Val)
    (synthFuel : Nat) (chk : Bool) (prefixes : List String) (m : FieldMeta) (v : Val)
    (h : m.canAddr = false ∨ m.canInterface = false) :
    processField w rec synthFuel chk prefixes m v = .ok v := by
  rcases h with h | h <;> simp [processField, h, exceptPure]

/-- In the full variant, a blank field with no env match, no default tag
and required set raises the required-but-blank error. -/
theorem processFieldRequiredError (w : World) (rec : List String → Val → Except String Val)
    (synthFuel : Nat) (prefixes : List String) (m : FieldMeta) (v : Val)
    (hA : m.canAddr = true) (hI : m.canInterface = true)
    (hEnv : firstEnvValue w.env (envCandidates prefixes m) = none)
    (hBlank : v = v.zeroOf) (hDef : m.defaultTag = "") (hReq : m.required = true) :
    processField w rec synthFuel true prefixes m v
      = .error (m.name ++ " is required, but blank") := by
  have hfull : applyDefaultOrRequired w true m v
      = .error (m.name ++ " is required, but blank") := by
    unfold applyDefaultOrRequired
    rw [if_pos hBlank, if_neg (by simp [hDef]), if_pos (by simp [hReq])]
  simp [processField, hA, hI, hEnv, hfull, exceptErrorBind, exceptOkBind, exceptPure]

/-- A blank scalar field with no env match and no default tag is left
zero-valued when the required check does not fire (init variant, or
required unset). -/
theorem processFieldBlankNoDefaultOk (w : World) (rec : List String → Val → Except String Val)
    (synthFuel : Nat) (chk : Bool) (prefixes : List String) (m : FieldMeta) (v : Val)
    (hA : m.canAddr = true) (hI : m.canInterface = true)
    (hEnv : firstEnvValue w.env (envCandidates prefixes m) = none)
    (hBlank : v = v.zeroOf) (hDef : m.defaultTag = "")
    (hCR : (chk && m.required) = false) (hScalar : v.isScalar = true) :
    processField w rec synthFuel chk prefixes m v = .ok v := by
  have hok : applyDefaultOrRequired w chk m v = .ok v := by
    unfold applyDefaultOrRequired
    rw [if_pos hBlank, if_neg (by simp [hDef]), if_neg (by simp [hCR])]
  have hstep := recurseStepScalar rec synthFuel prefixes m v hScalar
  simp [processField, hA, hI, hEnv, hok, hstep, exceptOkBind, exceptPure]

/-- A non-blank scalar field with no env match keeps its value: defaults
and the required check are bypassed. -/
theorem processFieldNonBlankScalarKept (w : World) (rec : List String → Val → Except String Val)
    (synthFuel : Nat) (chk : Bool) (prefixes : List String) (m : FieldMeta) (v : Val)
    (hA : m.canAddr = true) (hI : m.canInterface = true)
    (hEnv : firstEnvValue w.env (envCandidates prefixes m) = none)
    (hNB : ¬ v = v.zeroOf) (hScalar : v.isScalar = true) :
    processField w rec synthFuel chk prefixes m v = .ok v := by
  have hok : applyDefaultOrRequired w chk m v = .ok v := by
    unfold applyDefaultOrRequired
    rw [if_neg hNB]
  have hstep := recurseStepScalar rec synthFuel prefixes m v hScalar
  simp [processField, hA, hI, hEnv, hok, hstep, exceptOkBind, exceptPure]

/-- When the env probe finds a value whose conversion is a non-zero
scalar, the field is bound to that converted value, whatever file value
and default tag it had. -/
theorem processFieldEnvNonzeroScalar (w : World) (rec : List String → Val → Except String Val)
    (synthFuel : Nat) (chk : Bool) (prefixes : List String) (m : FieldMeta) (v r : Val)
    (value : String)
    (hA : m.canAddr = true) (hI : m.canInterface = true)
    (hEnv : firstEnvValue w.env (envCandidates prefixes m) = some value)
    (hConv : convertEnv w value v = .ok r)
    (hNB : ¬ r = r.zeroOf) (hScalar : r.isScalar = true) :
    processField w rec synthFuel chk prefixes m v = .ok r := by
  have hok : applyDefaultOrRequired w chk m r = .ok r := by
    unfold applyDefaultOrRequired
    rw [if_neg hNB]
  have hstep := recurseStepScalar rec synthFuel prefixes m r hScalar
  simp [processField, hA, hI, hEnv, hConv, hok, hstep, exceptOkBind, exceptPure]

/-- A boolean field with an env match and no default tag is bound through
the boolean conversion switch (whether the converted value is false, in
which case the blank path runs but does nothing, or true). -/
theorem processFieldBoolEnv (w : World) (rec : List String → Val → Except String Val)
    (synthFuel : Nat) (chk : Bool) (prefixes : List String) (m : FieldMeta) (b : Bool)
    (value : String)
    (hA : m.canAddr = true) (hI : m.canInterface = true)
    (hEnv : firstEnvValue w.env (envCandidates prefixes m) = some value)
    (hDef : m.defaultTag = "") (hCR : (chk && m.required) = false) :
    processField w rec synthFuel chk prefixes m (.vBool b)
      = .ok (.vBool (boolFromEnvString value)) := by
  have hok : applyDefaultOrRequired w chk m (.vBool (boolFromEnvString value))
      = .ok (.vBool (boolFromEnvString value)) := by
    unfold applyDefaultOrRequired
    cases hbv : boolFromEnvString value
    · rw [if_pos (by simp [Val.zeroOf]), if_neg (by simp [hDef]), if_neg (by simp [hCR])]
    · rw [if_neg (by simp [Val.zeroOf])]
  have hstep := recurseStepScalar rec synthFuel prefixes m (.vBool (boolFromEnvString value))
    (by simp [Val.isScalar])
  simp [processField, hA, hI, hEnv, convertEnv, hok, hstep, exceptOkBind, exceptPure]

/-- Lift a per-field result to processTags on a one-field record. -/
theorem processTagsSingleField (w : World) (fuel : Nat) (prefixes : List String)
    (m : FieldMeta) (v r : Val)
    (h : processField w (processFields w fuel true) fuel true prefixes m v = .ok r) :
    processTags w (fuel + 1) (.vStruct (.fcons m v .fnil)) prefixes
      = .ok (.vStruct (.fcons m r .fnil)) := by
  simp [processTags, processFields, h, exceptOkBind, exceptPure]

/-- Lift a per-field error to processTags on a one-field record. -/
theorem processTagsSingleFieldErr (w : World) (fuel : Nat) (prefixes : List String)
    (m : FieldMeta) (v : Val) (e : String)
    (h : processField w (processFields w fuel true) fuel true prefixes m v = .error e) :
    processTags w (fuel + 1) (.vStruct (.fcons m v .fnil)) prefixes = .error e := by
  simp [processTags, processFields, h, exceptErrorBind, exceptOkBind, exceptPure]

/-- Lift a per-field result to processInitTags on a one-field record. -/
theorem processInitTagsSingleField (w : World) (fuel : Nat) (prefixes : List String)
    (m : FieldMeta) (v r : Val)
    (h : processField w (processFields w fuel false) fuel false prefixes m v = .ok r) :
    processInitTags w (fuel + 1) (.vStruct (.fcons m v .fnil)) prefixes
      = .ok (.vStruct (.fcons m r .fnil)) := by
  simp [processInitTags, processFields, h, exceptOkBind, exceptPure]

/-! Concrete fixtures used by counterexample and witness theorems. -/

/-- A world whose environment is entirely empty. -/
def wEmptyEnv : World := ⟨fun _ => "", yamlLit⟩

/-- An int field that is required and carries the default tag "0". -/
def mPortReqDef : FieldMeta := ⟨"Port", "", "0", true, false, false, true, true⟩

/-- A required field with no default tag. -/
def mReqNoDef : FieldMeta := ⟨"Host", "", "", true, false, false, true, true⟩

/-- A bool field with default tag "true". -/
def mFlagDef : FieldMeta := ⟨"Flag", "", "true", false, false, false, true, true⟩

/-- A world where P_Flag is set to "false". -/
def wFlagFalse : World := ⟨fun n => if n = "P_Flag" then "false" else "", yamlLit⟩

/-- An int field with default tag "7". -/
def mPortDef7 : FieldMeta := ⟨"Port", "", "7", false, false, false, true, true⟩

/-- A world where P_PORT is set to "9090". -/
def wPort9090 : World := ⟨fun n => if n = "P_PORT" then "9090" else "", yamlLit⟩

/-- A required field that is not addressable and not interfaceable. -/
def mHidden : FieldMeta := ⟨"secret", "", "", true, false, false, false, false⟩

/-- A world where only the second candidate name B has a value. -/
def wSecondCandidate : World := ⟨fun n => if n = "B" then "x" else "", yamlLit⟩

/-- A plain string field. -/
def mStrPlain : FieldMeta := ⟨"Name", "", "", false, false, false, true, true⟩

/-- A world where only P_Flag is set, to "F". -/
def wBoolF : World := ⟨fun n => if n = "P_Flag" then "F" else "", yamlLit⟩

/-- A plain bool field. -/
def mBoolPlain : FieldMeta := ⟨"Flag", "", "", false, false, false, true, true⟩

/-- The Name field of a synthesized sequence element. -/
def nameMeta : FieldMeta := ⟨"Name", "", "", false, false, false, true, true⟩

/-- The Items slice field. -/
def itemsMeta : FieldMeta := ⟨"Items", "", "", false, false, false, true, true⟩

/-- The zero value of the Items element type. -/
def itemZero : Val := .vStruct (.fcons nameMeta (.vStr "") .fnil)

/-- A world with PREFIX_ITEMS_0_NAME=a and PREFIX_ITEMS_1_NAME=b set and
every other variable unset. -/
def wItems : World :=
  ⟨fun n => if n = "PREFIX_ITEMS_0_NAME" then "a"
            else if n = "PREFIX_ITEMS_1_NAME" then "b" else "", yamlLit⟩

/-- A filesystem where app.yml (mod time 3) and app.production.yml (mod
time 5) exist as regular files. -/
def fsBoth : FS :=
  ⟨fun p =>
    if p = "app.yml" then some ⟨true, 3⟩
    else if p = "app.production.yml" then some ⟨true, 5⟩ else none⟩

/-! Claim theorems. -/

/-- C1 counterexample: a required int field with default tag "0" is still
the zero value after file decoding (vInt 0), environment probing (no env
match) and default application (the default parses to 0), yet the full
binder used by Load returns ok instead of a RequiredFieldError, because
the required check is the else-branch of the default check
(part_000:249-256). -/
theorem requiredZeroDefaultNoError :
    processTags wEmptyEnv 4 (.vStruct (.fcons mPortReqDef (.vInt 0) .fnil)) ["ConfigService"]
      = .ok (.vStruct (.fcons mPortReqDef (.vInt 0) .fnil))
  ∧ mPortReqDef.required = true
  ∧ (Val.vInt 0 : Val) = Val.zeroOf (.vInt 0) := ⟨rfl, rfl, rfl⟩

/-- C1 (amended): for a required field with no default annotation that is
still zero after file decoding and environment probing, the full binder
used by Load returns the required-but-blank error naming the field, while
the init binder used by Init returns ok and leaves the field zero. -/
theorem requiredBlankNoDefaultLoadErrorsInitOk (w : World) (fuel : Nat)
    (prefixes : List String) (m : FieldMeta) (v : Val)
    (hA : m.canAddr = true) (hI : m.canInterface = true)
    (hEnv : firstEnvValue w.env (envCandidates prefixes m) = none)
    (hBlank : v = v.zeroOf) (hDef : m.defaultTag = "") (hReq : m.required = true)
    (hScalar : v.isScalar = true) :
    processTags w (fuel + 1) (.vStruct (.fcons m v .fnil)) prefixes
        = .error (m.name ++ " is required, but blank")
  ∧ processInitTags w (fuel + 1) (.vStruct (.fcons m v .fnil)) prefixes
        = .ok (.vStruct (.fcons m v .fnil)) := by
  constructor
  · exact processTagsSingleFieldErr w fuel prefixes m v _
      (processFieldRequiredError w _ fuel prefixes m v hA hI hEnv hBlank hDef hReq)
  · exact processInitTagsSingleField w fuel prefixes m v v
      (processFieldBlankNoDefaultOk w _ fuel false prefixes m v hA hI hEnv hBlank hDef
        (by simp) hScalar)

/-- C1 witness: the required string field Host with empty environment
makes Load's binder fail and Init's binder succeed. -/
theorem requiredBlankWitness :
    processTags wEmptyEnv (3 + 1) (.vStruct (.fcons mReqNoDef (.vStr "") .fnil)) ["P"]
        = .error ("Host" ++ " is required, but blank")
  ∧ processInitTags wEmptyEnv (3 + 1) (.vStruct (.fcons mReqNoDef (.vStr "") .fnil)) ["P"]
        = .ok (.vStruct (.fcons mReqNoDef (.vStr "") .fnil)) :=
  requiredBlankNoDefaultLoadErrorsInitOk wEmptyEnv 3 ["P"] mReqNoDef (.vStr "")
    rfl rfl rfl rfl rfl rfl rfl

/-- C2 counterexample: a bool field with file value true, default tag
"true" and environment value "false": the env match converts the field to
false, which is the bool zero value, so the blank check then applies the
default and the bound value ends up true, not the env-converted false.
Environment values do not strictly override defaults. -/
theorem envFalseOverriddenByDefault :
    firstEnvValue wFlagFalse.env (envCandidates ["P"] mFlagDef) = some "false"
  ∧ convertEnv wFlagFalse "false" (.vBool true) = .ok (.vBool false)
  ∧ processTags wFlagFalse 4 (.vStruct (.fcons mFlagDef (.vBool true) .fnil)) ["P"]
      = .ok (.vStruct (.fcons mFlagDef (.vBool true) .fnil))
  ∧ (Val.vBool true : Val) ≠ .vBool false := ⟨rfl, rfl, rfl, by decide⟩

/-- C2 (amended): when the environment probe matches and the converted
value is a non-zero scalar, the bound value equals the converted
environment value, regardless of the field's file-provided value and of
its default annotation. -/
theorem envNonzeroValueOverridesFileAndDefault (w : World) (fuel : Nat)
    (prefixes : List String) (m : FieldMeta) (v r : Val) (value : String)
    (hA : m.canAddr = true) (hI : m.canInterface = true)
    (hEnv : firstEnvValue w.env (envCandidates prefixes m) = some value)
    (hConv : convertEnv w value v = .ok r)
    (hNB : ¬ r = r.zeroOf) (hScalar : r.isScalar = true) :
    processTags w (fuel + 1) (.vStruct (.fcons m v .fnil)) prefixes
      = .ok (.vStruct (.fcons m r .fnil)) :=
  processTagsSingleField w fuel prefixes m v r
    (processFieldEnvNonzeroScalar w _ fuel true prefixes m v r value hA hI hEnv hConv hNB hScalar)

/-- C2 witness: file sets Port to 80, default is "7", env sets
P_PORT=9090; the bound value is 9090. -/
theorem envOverridesWitness :
    processTags wPort9090 (3 + 1) (.vStruct (.fcons mPortDef7 (.vInt 80) .fnil)) ["P"]
      = .ok (.vStruct (.fcons mPortDef7 (.vInt 9090) .fnil)) :=
  envNonzeroValueOverridesFileAndDefault wPort9090 3 ["P"] mPortDef7 (.vInt 80) (.vInt 9090)
    "9090" rfl rfl rfl rfl (by decide) rfl

/-- C3 counterexample: starting from the original record value 0, with an
initial load and two reload cycles that each successfully bind the
scratch to its seed plus one, the cycles are seeded with 1 and 2 — the
current committed values — and not with the original value 0. The reload
scratch is not seeded with the record's pre-first-load default values. -/
theorem autoReloadSeedNotOriginalDefaults :
    (loadWithAutoReload (fun s => (s + 1, none, true))
        [fun s => (s + 1, none, true), fun s => (s + 1, none, true)] (0 : Nat)).2.2 = [1, 2]
  ∧ (1 : Nat) ≠ 0 ∧ (2 : Nat) ≠ 0 := ⟨rfl, by decide, by decide⟩

/-- C3 (amended): every auto-reload cycle binds into a freshly allocated
record seeded with the current contents of the caller-visible record at
cycle start (the latest committed values, because the captured
defaultValue aliases the record), and the result is published — and the
callback invoked — exactly when the binding pass returned no error and
the source set was detected as changed. -/
theorem autoReloadCycleSeedAndPublish {V : Type} (loadScratch : V → V × Option String × Bool)
    (config v : V) (e : Option String) (ch : Bool) (h : loadScratch config = (v, e, ch)) :
    (autoReloadCycle loadScratch config).seed = config
  ∧ (autoReloadCycle loadScratch config).committed
      = (if e = none ∧ ch = true then v else config)
  ∧ ((autoReloadCycle loadScratch config).callbackRun = true ↔ (e = none ∧ ch = true)) := by
  refine ⟨?_, ?_, ?_⟩ <;>
    · simp only [autoReloadCycle, h]
      split <;> simp_all

/-- C3 witness: a successful changed cycle on the committed value 41 is
seeded with 41, commits 42 and runs the callback. -/
theorem autoReloadCycleWitness :
    (autoReloadCycle (fun s => (s + 1, none, true)) (41 : Nat)).seed = 41
  ∧ (autoReloadCycle (fun s => (s + 1, none, true)) (41 : Nat)).committed = 42
  ∧ (autoReloadCycle (fun s => (s + 1, none, true)) (41 : Nat)).callbackRun = true := by
  have h := autoReloadCycleSeedAndPublish (fun s => (s + 1, none, true)) (41 : Nat) 42 none true rfl
  refine ⟨h.1, ?_, ?_⟩
  · rw [h.2.1]
    simp
  · rw [h.2.2]
    simp

/-- C4: with an empty Items slice of record element type, prefix PREFIX,
and env variables PREFIX_ITEMS_0_NAME=a and PREFIX_ITEMS_1_NAME=b set,
the binder synthesizes exactly the two-element sequence with Name "a"
then Name "b": element 2 binds to a fresh zero-valued element (second
conjunct), so the synthesis loop stops there having accumulated the two
elements (third conjunct). -/
theorem sliceFromEnvSynthesis :
    processTags wItems 6 (.vStruct (.fcons itemsMeta (.vSlice itemZero .enil) .fnil)) ["PREFIX"]
      = .ok (.vStruct (.fcons itemsMeta
          (.vSlice itemZero
            (.econs (.vStruct (.fcons nameMeta (.vStr "a") .fnil))
              (.econs (.vStruct (.fcons nameMeta (.vStr "b") .fnil)) .enil))) .fnil))
  ∧ processFields wItems 5 true ["PREFIX", "Items", "2"] (.fcons nameMeta (.vStr "") .fnil)
      = .ok (.fcons nameMeta (.vStr "") .fnil)
  ∧ synthSliceFromEnv (processFields wItems 5 true) 5 ["PREFIX", "Items"]
      (.fcons nameMeta (.vStr "") .fnil) 2
      (.econs (.vStruct (.fcons nameMeta (.vStr "a") .fnil))
        (.econs (.vStruct (.fcons nameMeta (.vStr "b") .fnil)) .enil))
      = .ok (.econs (.vStruct (.fcons nameMeta (.vStr "a") .fnil))
          (.econs (.vStruct (.fcons nameMeta (.vStr "b") .fnil)) .enil)) := ⟨rfl, rfl, rfl⟩

/-- C5: per-candidate source resolution. If the literal path is a regular
file it is included; independently, if the env-suffixed variant is a
regular file it is included after the base; when neither exists the
".example" variant is used, with a missing-file diagnostic unless in
watch or silent mode; when no fallback exists nothing is included. The
env-suffixed name inserts the environment before the extension, or
appends ".<env>" when there is no extension; and resolving a one-element
candidate list is exactly the per-candidate resolution. -/
theorem sourceResolverCases (fs : FS) (watchMode silent : Bool) (env file : String) :
    (∀ t ef et, statRegular fs file = some t →
        getConfigurationFileWithENVPrefix fs file env = some (ef, et) →
        resolveCandidate fs watchMode silent env file = ([(file, t), (ef, et)], []))
  ∧ (∀ t, statRegular fs file = some t →
        getConfigurationFileWithENVPrefix fs file env = none →
        resolveCandidate fs watchMode silent env file = ([(file, t)], []))
  ∧ (∀ ef et, statRegular fs file = none →
        getConfigurationFileWithENVPrefix fs file env = some (ef, et) →
        resolveCandidate fs watchMode silent env file = ([(ef, et)], []))
  ∧ (∀ ex et, statRegular fs file = none →
        getConfigurationFileWithENVPrefix fs file env = none →
        getConfigurationFileWithENVPrefix fs file "example" = some (ex, et) →
        resolveCandidate fs watchMode silent env file
          = ([(ex, et)], if !watchMode && !silent then [Diag.usingExample file ex] else []))
  ∧ (statRegular fs file = none →
        getConfigurationFileWithENVPrefix fs file env = none →
        getConfigurationFileWithENVPrefix fs file "example" = none →
        resolveCandidate fs watchMode silent env file
          = ([], if !silent then [Diag.notFound file] else []))
  ∧ envFileName "config.yaml" "production" = "config.production.yaml"
  ∧ envFileName "config" "production" = "config.production"
  ∧ getConfigurationFiles fs watchMode silent env [file]
      = resolveCandidate fs watchMode silent env file := by
  refine ⟨?_, ?_, ?_, ?_, ?_, rfl, rfl, ?_⟩
  · intro t ef et h1 h2
    simp [resolveCandidate, h1, h2]
  · intro t h1 h2
    simp [resolveCandidate, h1, h2]
  · intro ef et h1 h2
    simp [resolveCandidate, h1, h2]
  · intro ex et h1 h2 h3
    simp [resolveCandidate, h1, h2, h3]
  · intro h1 h2 h3
    simp [resolveCandidate, h1, h2, h3]
  · simp [getConfigurationFiles]

/-- C5 witness: both app.yml and app.production.yml exist, so both are
included, the env-suffixed file after the base. -/
theorem sourceResolverCasesWitness :
    resolveCandidate fsBoth false false "production" "app.yml"
      = ([("app.yml", 3), ("app.production.yml", 5)], []) :=
  (sourceResolverCases fsBoth false false "production" "app.yml").1 3 "app.production.yml" 5
    rfl rfl

/-- Helper for C6: if every newly resolved entry has a recorded time that
is not older, the change scan reports false. -/
theorem modTimesChangedFalse (resolved prevTimes : List (String × Nat))
    (hOld : ∀ ft ∈ resolved, ∃ tOld, lookupTime prevTimes ft.1 = some tOld ∧ ft.2 ≤ tOld) :
    modTimesChanged resolved prevTimes = false := by
  induction resolved with
  | nil => rfl
  | cons ft rest ih =>
      obtain ⟨tOld, hl, hle⟩ := hOld ft (by simp)
      have hrest : modTimesChanged rest prevTimes = false :=
        ih (fun x hx => hOld x (by simp [hx]))
      simp only [modTimesChanged, List.any_cons] at hrest ⊢
      rw [hl, hrest]
      simp [Nat.not_lt.mpr hle]

/-- C6: in watch mode, when the newly resolved source set has the same
number of entries as the recorded set and every entry has a recorded
modification time that is not older than its new one, the load pipeline
returns the unchanged outcome: no error, changed = false, no file
decoded, and the field binder did not run. -/
theorem loadWatchShortCircuit (resolved prevTimes : List (String × Nat))
    (decodeFile : String → Option String) (bindPass : List String → Option String)
    (prefixes : List String)
    (hLen : resolved.length = prevTimes.length)
    (hOld : ∀ ft ∈ resolved, ∃ tOld, lookupTime prevTimes ft.1 = some tOld ∧ ft.2 ≤ tOld) :
    loadModel true resolved prevTimes decodeFile bindPass prefixes
      = ⟨none, false, [], false⟩ := by
  have hmc := modTimesChangedFalse resolved prevTimes hOld
  simp [loadModel, hLen, hmc]

/-- C6 witness: one file app.yml with unchanged time short-circuits even
though decoding and binding would both fail. -/
theorem loadWatchShortCircuitWitness :
    loadModel true [("app.yml", 3)] [("app.yml", 5)] (fun _ => some "boom") (fun _ => some "bind")
      ["P"] = ⟨none, false, [], false⟩ := by
  refine loadWatchShortCircuit [("app.yml", 3)] [("app.yml", 5)] _ _ ["P"] rfl ?_
  intro ft hft
  simp only [List.mem_singleton] at hft
  subst hft
  exact ⟨5, rfl, by omega⟩

/-- C7: the boolean conversion switch maps every value whose lower-cased
form is "", "0", "f" or "false" (so also "F" and "FALSE") to false and
every other value to true; and a boolean field with a matching non-empty
environment value and no default annotation is bound to exactly the
switch's output. -/
theorem boolEnvBinding :
    (∀ value : String,
        (strToLower value = "" ∨ strToLower value = "0" ∨ strToLower value = "f"
          ∨ strToLower value = "false") →
        boolFromEnvString value = false)
  ∧ (∀ value : String,
        ¬(strToLower value = "" ∨ strToLower value = "0" ∨ strToLower value = "f"
          ∨ strToLower value = "false") →
        boolFromEnvString value = true)
  ∧ (∀ (w : World) (fuel : Nat) (prefixes : List String) (m : FieldMeta) (b : Bool)
        (value : String),
        m.canAddr = true → m.canInterface = true →
        firstEnvValue w.env (envCandidates prefixes m) = some value →
        m.defaultTag = "" → m.required = false →
        processTags w (fuel + 1) (.vStruct (.fcons m (.vBool b) .fnil)) prefixes
          = .ok (.vStruct (.fcons m (.vBool (boolFromEnvString value)) .fnil))) := by
  refine ⟨?_, ?_, ?_⟩
  · intro value h
    unfold boolFromEnvString
    rw [if_pos h]
  · intro value h
    unfold boolFromEnvString
    rw [if_neg h]
  · intro w fuel prefixes m b value hA hI hEnv hDef hReq
    exact processTagsSingleField w fuel prefixes m (.vBool b) (.vBool (boolFromEnvString value))
      (processFieldBoolEnv w _ fuel true prefixes m b value hA hI hEnv hDef (by simp [hReq]))

/-- C7 witness: "FALSE" converts to false, "yes" to true, and a bool
field that was true is bound to false by the env value "F". -/
theorem boolEnvBindingWitness :
    boolFromEnvString "FALSE" = false
  ∧ boolFromEnvString "yes" = true
  ∧ processTags wBoolF (0 + 1) (.vStruct (.fcons mBoolPlain (.vBool true) .fnil)) ["P"]
      = .ok (.vStruct (.fcons mBoolPlain (.vBool (boolFromEnvString "F")) .fnil)) :=
  ⟨boolEnvBinding.1 "FALSE" (Or.inr (Or.inr (Or.inr rfl))),
   boolEnvBinding.2.1 "yes" (by decide),
   boolEnvBinding.2.2 wBoolF 0 ["P"] mBoolPlain true "F" rfl rfl rfl rfl rfl⟩

/-- C8 counterexample: with the TOML probe failing for an ordinary
reason, the JSON probe failing without the unknown-field marker, and the
YAML probe failing with a TypeError that was not caused by unmatched keys
(as in non-strict mode, where yaml never reports unmatched keys), the
dispatch returns the TypeError as-is, not the generic decode failure —
although every probe failed for a reason other than unmatched keys. -/
theorem yamlTypeErrorNotGeneric :
    processFileNoExt (.otherErr "toml failure") (.jsonErr "invalid character")
        (.typeErr "yaml type mismatch" false)
      = .yamlTypeError "yaml type mismatch"
  ∧ (DecodeResult.yamlTypeError "yaml type mismatch" ≠ .genericFailure)
  ∧ strContains "invalid character" "json: unknown field" = false := ⟨rfl, by decide, rfl⟩

/-- C8 (amended): the no-extension dispatch probes TOML, then JSON, then
YAML, accepting the first clean decode; a TOML unmatched-keys error and a
JSON unknown-field error are returned immediately instead of falling
through; a YAML TypeError is returned as-is whether or not it was caused
by unmatched keys; only when the remaining YAML failure is not a
TypeError is the generic decode failure returned. -/
theorem decoderDispatchOrder :
    (∀ jsonR yamlR, processFileNoExt .ok jsonR yamlR = .ok)
  ∧ (∀ ks jsonR yamlR, processFileNoExt (.unmatchedKeys ks) jsonR yamlR = .unmatchedTomlKeys ks)
  ∧ (∀ te yamlR, processFileNoExt (.otherErr te) .ok yamlR = .ok)
  ∧ (∀ te msg yamlR, strContains msg "json: unknown field" = true →
        processFileNoExt (.otherErr te) (.jsonErr msg) yamlR = .jsonUnknownField msg)
  ∧ (∀ te msg, strContains msg "json: unknown field" = false →
        processFileNoExt (.otherErr te) (.jsonErr msg) .ok = .ok)
  ∧ (∀ te msg ym b, strContains msg "json: unknown field" = false →
        processFileNoExt (.otherErr te) (.jsonErr msg) (.typeErr ym b) = .yamlTypeError ym)
  ∧ (∀ te msg ye, strContains msg "json: unknown field" = false →
        processFileNoExt (.otherErr te) (.jsonErr msg) (.otherErr ye) = .genericFailure) := by
  refine ⟨fun _ _ => rfl, fun _ _ _ => rfl, fun _ _ => rfl, ?_, ?_, ?_, ?_⟩
  · intro te msg yamlR h
    simp [processFileNoExt, h]
  · intro te msg h
    simp [processFileNoExt, h]
  · intro te msg ym b h
    simp [processFileNoExt, h]
  · intro te msg ye h
    simp [processFileNoExt, h]

/-- C8 witness: a JSON message carrying the unknown-field marker is
returned immediately after a failed TOML probe. -/
theorem decoderDispatchOrderWitness :
    processFileNoExt (.otherErr "t") (.jsonErr "json: unknown field \"port\"") .ok
      = .jsonUnknownField "json: unknown field \"port\"" :=
  decoderDispatchOrder.2.2.2.1 "t" "json: unknown field \"port\"" .ok rfl

/-- C9: a field that is not addressable or not interfaceable is skipped
entirely by both binder variants: its value is unchanged and no error is
raised, for every environment and every metadata — including required
fields with zero values. -/
theorem inaccessibleFieldSkipped (w : World) (fuel : Nat) (prefixes : List String)
    (m : FieldMeta) (v : Val) (h : m.canAddr = false ∨ m.canInterface = false) :
    processTags w (fuel + 1) (.vStruct (.fcons m v .fnil)) prefixes
        = .ok (.vStruct (.fcons m v .fnil))
  ∧ processInitTags w (fuel + 1) (.vStruct (.fcons m v .fnil)) prefixes
        = .ok (.vStruct (.fcons m v .fnil)) :=
  ⟨processTagsSingleField w fuel prefixes m v v
      (processFieldSkipsInaccessible w _ fuel true prefixes m v h),
   processInitTagsSingleField w fuel prefixes m v v
      (processFieldSkipsInaccessible w _ fuel false prefixes m v h)⟩

/-- C9 witness: an unexported required field that is zero-valued causes
no error in either binder and stays zero. -/
theorem inaccessibleFieldSkippedWitness :
    processTags wEmptyEnv (0 + 1) (.vStruct (.fcons mHidden (.vStr "") .fnil)) ["P"]
        = .ok (.vStruct (.fcons mHidden (.vStr "") .fnil))
  ∧ processInitTags wEmptyEnv (0 + 1) (.vStruct (.fcons mHidden (.vStr "") .fnil)) ["P"]
        = .ok (.vStruct (.fcons mHidden (.vStr "") .fnil)) :=
  inaccessibleFieldSkipped wEmptyEnv 0 ["P"] mHidden (.vStr "") (Or.inl rfl)

/-- C10: an environment variable whose value is the empty string behaves
exactly like an absent one: the probe falls through to the next candidate
name, and when every candidate is empty a non-blank field keeps its
existing value, with default and required handling proceeding as if no
match occurred. -/
theorem emptyEnvValueFallsThrough :
    (∀ (env : String → String) (n : String) (rest : List String),
        env n = "" → firstEnvValue env (n :: rest) = firstEnvValue env rest)
  ∧ (∀ (w : World) (fuel : Nat) (prefixes : List String) (m : FieldMeta) (v : Val),
        m.canAddr = true → m.canInterface = true →
        firstEnvValue w.env (envCandidates prefixes m) = none →
        ¬ v = v.zeroOf → v.isScalar = true →
        processTags w (fuel + 1) (.vStruct (.fcons m v .fnil)) prefixes
          = .ok (.vStruct (.fcons m v .fnil))) := by
  constructor
  · intro env n rest h
    simp [firstEnvValue, h]
  · intro w fuel prefixes m v hA hI hEnv hNB hScalar
    exact processTagsSingleField w fuel prefixes m v v
      (processFieldNonBlankScalarKept w _ fuel true prefixes m v hA hI hEnv hNB hScalar)

/-- C10 witness: with candidate A set to "" the probe falls through to
candidate B, and with every candidate empty the string field keeps its
file-decoded value "hello". -/
theorem emptyEnvValueFallsThroughWitness :
    firstEnvValue wSecondCandidate.env ("A" :: ["B"]) = firstEnvValue wSecondCandidate.env ["B"]
  ∧ processTags wEmptyEnv (0 + 1) (.vStruct (.fcons mStrPlain (.vStr "hello") .fnil)) ["P"]
      = .ok (.vStruct (.fcons mStrPlain (.vStr "hello") .fnil)) :=
  ⟨emptyEnvValueFallsThrough.1 wSecondCandidate.env "A" ["B"] rfl,
   emptyEnvValueFallsThrough.2 wEmptyEnv 0 ["P"] mStrPlain (.vStr "hello")
     rfl rfl rfl (by decide) rfl⟩

end ConfigService
